import Mathlib

/-!
Verification of the campaign message dispatch engine of the marketing backend
(`src/marketing/services.py`, data model in `src/marketing/models.py`).

The embedding models one campaign's orchestration state: the campaign record,
its `CampaignMessage` rows (kept in creation order, so list order is the
`created_at` order used by the delivery loop), its append-only `CampaignLog`
rows, and a notification counter.  External provider sends are modelled by an
outcome oracle (`Outcome`), consumed positionally by the delivery loop; the
rate limiters only delay and cannot fail (services.py:201-222), so they are
not modelled.  Timestamps (`sent_at`, `last_run_at`, `updated_at`) carry no
information any claim depends on; `sent_at` is kept as a Bool flag and the
others are omitted.  JSON dicts with a fixed key set (message metadata,
content payloads) are modelled as structures; the campaign `metrics` dict,
whose key set is open (`revenue`, custom keys), is modelled as an association
list with Python-dict set/update semantics (keys unique).
-/

namespace Marketing

/-- Message statuses, models.py:418-425 (`CampaignMessage.Status`). -/
inductive MStatus where
  | pending
  | scheduled
  | sending
  | sent
  | failed
  | opened
  | clicked
deriving DecidableEq, Repr

/-- Campaign statuses, models.py:311-316 (`Campaign.Status`). -/
inductive CStatus where
  | draft
  | scheduled
  | running
  | completed
  | failed
deriving DecidableEq, Repr

/-- The only product field the orchestrator reads (services.py:545). -/
structure Product where
  name : String
deriving DecidableEq, Repr

/-- Customer fields the dispatch engine reads (models.py:202-230).
`phone_number` is a blank-able CharField, so the empty string is the
"no phone" value tested by `not customer.phone_number`. -/
structure Customer where
  id : Nat
  email : String := ""
  phone_number : String := ""
  first_name : String := ""
  last_name : String := ""
  preferred_channels : List String := []
deriving DecidableEq, Repr

/-- A content payload: the template keys read via `content.get(...)`
(services.py:425-437, 503-517).  `none` models an absent key. -/
structure Content where
  email_body : Option String := none
  whatsapp_message : Option String := none
  sms_text : Option String := none
  social_post : Option String := none
  subject_line : Option String := none
  title : Option String := none
  hashtags : List String := []
deriving DecidableEq, Repr

/-- Models `content.get(key)` for the keys the orchestrator uses. -/
def contentGet (c : Content) (key : String) : Option String :=
  if key = "email_body" then c.email_body
  else if key = "whatsapp_message" then c.whatsapp_message
  else if key = "sms_text" then c.sms_text
  else if key = "social_post" then c.social_post
  else if key = "subject_line" then c.subject_line
  else if key = "title" then c.title
  else none

/-- Per-variant metrics, models.py:30-37 (`default_variant_metrics`) and the
dict written at services.py:730-736. -/
structure VMetrics where
  sent : Nat := 0
  delivered : Nat := 0
  opened : Nat := 0
  clicked : Nat := 0
  conversions : Nat := 0
deriving DecidableEq, Repr

/-- Models `CampaignVariant`, models.py:381-401.  Labels are unique per campaign
(`unique_together ('campaign', 'label')`). -/
structure Variant where
  id : Nat
  label : String
  channel_payload : Content := {}
  metrics : VMetrics := {}
  is_winner : Bool := false
deriving DecidableEq, Repr

/-- The message `metadata` JSON blob.  Its keys are exactly those written at
services.py:433-440 (build), services.py:599-603 (fallback) and the dispatch
result metadata merged at services.py:572 (`channel` / `note`). -/
structure MsgMeta where
  language_code : String := ""
  subject_line : Option String := none
  title : Option String := none
  hashtags : List String := []
  fallback_channels : List String := []
  variant_label : Option String := none
  fallback_of : Option Nat := none
  channel_note : Option String := none
  note : Option String := none
deriving DecidableEq, Repr

/-- Models `CampaignMessage`, models.py:407-455.  `max_attempts` defaults to
`CAMPAIGN_MAX_RETRIES` = 3 (models.py:26-27, settings.py:165).  The channel is
the TextChoices string value.  `variant_label` stands for the variant FK
(labels are unique per campaign). -/
structure Msg where
  id : Nat
  customer : Customer
  channel : String
  content : String := ""
  status : MStatus := .pending
  attempts : Nat := 0
  max_attempts : Nat := 3
  last_error : String := ""
  external_id : Option String := none
  metadata : MsgMeta := {}
  variant_label : Option String := none
  sent_at : Bool := false
deriving DecidableEq, Repr

/-- Values stored in the campaign `metrics` JSON map: the refreshed counters
are ints; `default_metrics` also stores the float `0.0` under `revenue`
(models.py:22-23); other JSON values are kept opaque as strings. -/
inductive PyVal where
  | num : Nat → PyVal
  | float0 : PyVal
  | str : String → PyVal
deriving DecidableEq, Repr

/-- models.py:22-23 (`default_metrics`). -/
def default_metrics : List (String × PyVal) :=
  [("sent", PyVal.num 0), ("opened", PyVal.num 0),
   ("clicked", PyVal.num 0), ("revenue", PyVal.float0)]

/-- Campaign fields the dispatch engine reads or writes (models.py:308-350).
`channels` is the channel-enablement dict in insertion order. -/
structure CampaignState where
  status : CStatus := .draft
  channels : List (String × Bool) := []
  metrics : List (String × PyVal) := default_metrics
  subject_line : String := ""
  title : String := ""
  language_code : String := "en"
  product : Option Product := none
  optimization_metadata : List (String × String) := []
deriving DecidableEq, Repr

/-- Models `CampaignLog`, models.py:461-482 (append-only). -/
structure LogEntry where
  action : String
  message_id : Option Nat := none
  details : String := ""
deriving DecidableEq, Repr

/-- The orchestration state for one campaign: its record, its message rows in
creation order, its logs, a fresh-id counter for new rows, and the number of
notifications emitted. -/
structure St where
  campaign : CampaignState := {}
  messages : List Msg := []
  variants : List Variant := []
  logs : List LogEntry := []
  next_id : Nat := 0
  notifications : Nat := 0
deriving DecidableEq, Repr

/-- Python exception kinds raised by the orchestrator paths under study. -/
inductive PyErr where
  | typeError : String → PyErr
  | valueError : String → PyErr
deriving DecidableEq, Repr

deriving instance DecidableEq for Except

/-- Python truthiness test for an optional string (`if not base_content`). -/
def pyFalsy : Option String → Bool
  | none => true
  | some s => s = ""

/-- Python `a or b` on optional strings. -/
def pyOr (a b : Option String) : Option String :=
  if pyFalsy a then b else a

/-- Models `CampaignOrchestrator._template_key`, services.py:503-512. -/
def template_key (channel : String) : String :=
  if channel = "email" then "email_body"
  else if channel = "whatsapp" then "whatsapp_message"
  else if channel = "sms" then "sms_text"
  else if channel = "facebook" ∨ channel = "instagram" ∨ channel = "twitter" then "social_post"
  else "email_body"

/-- Models `CampaignOrchestrator._variant_content`, services.py:514-517. -/
def variant_content (content : Content) (tkey : String) (variant : Option Variant) : Option String :=
  match variant with
  | some v => pyOr (contentGet v.channel_payload tkey) (contentGet content tkey)
  | none => contentGet content tkey

/-- The enabled channel keys of a campaign, in dict insertion order
(services.py:521). -/
def enabled_channels (channels : List (String × Bool)) : List String :=
  (channels.filter (fun p => p.2)).map (fun p => p.1)

/-- The body of the dedup loop of `_resolve_channels` (services.py:523-532):
skip channels the campaign has not enabled, skip phone-dependent channels for
customers without a phone number, skip duplicates, keep the rest in order. -/
def resolve_step (enabled : List String) (customer : Customer) (deduped : List String)
    (ch : String) : List String :=
  if ¬ enabled.contains ch then deduped
  else if ch = "whatsapp" ∧ customer.phone_number = "" then deduped
  else if ch = "sms" ∧ customer.phone_number = "" then deduped
  else if deduped.contains ch then deduped
  else deduped ++ [ch]

/-- Models `CampaignOrchestrator._resolve_channels`, services.py:519-533. -/
def resolve_channels (camp : CampaignState) (customer : Customer) : List String :=
  let preferred := customer.preferred_channels
  let enabled := enabled_channels camp.channels
  let ordered := preferred ++ enabled.filter (fun ch => ¬ preferred.contains ch)
  ordered.foldl (resolve_step enabled customer) []

/-- Models `CampaignOrchestrator._fallback_channels`, services.py:535-537. -/
def fallback_channels (camp : CampaignState) (primary_channel : String) (customer : Customer) : List String :=
  (resolve_channels camp customer).filter (fun ch => ch ≠ primary_channel)

/-- Python `str.replace` on character lists: replace each non-overlapping
occurrence of `pat` left to right.  The fuel argument (instantiated with the
input length, an upper bound on the number of steps since `pat` is never
empty here) keeps the recursion structural so that proofs can evaluate it. -/
def replace_fuel (pat rep : List Char) : Nat → List Char → List Char
  | _, [] => []
  | 0, l => l
  | fuel + 1, c :: rest =>
    if pat.isPrefixOf (c :: rest) ∧ pat ≠ [] then
      rep ++ replace_fuel pat rep fuel ((c :: rest).drop pat.length)
    else
      c :: replace_fuel pat rep fuel rest

/-- Python `template.replace(pat, rep)` for the non-empty placeholder
patterns used by `_personalize`. -/
def str_replace (s pat rep : String) : String :=
  String.mk (replace_fuel pat.data rep.data s.data.length s.data)

/-- Models `CampaignOrchestrator._personalize`, services.py:539-551, as defined:
two parameters (template, customer); replacements are applied in the dict's
insertion order.  Literal braces are written with hex escapes. -/
def personalize (camp : CampaignState) (template : String) (customer : Customer) : String :=
  let full_name := (customer.first_name ++ " " ++ customer.last_name).trim
  let product_name := match camp.product with
    | some p => p.name
    | none => ""
  let c1 := str_replace template "\x7b\x7bfirst_name\x7d\x7d" customer.first_name
  let c2 := str_replace c1 "\x7b\x7blast_name\x7d\x7d" customer.last_name
  let c3 := str_replace c2 "\x7b\x7bfull_name\x7d\x7d" full_name
  let c4 := str_replace c3 "\x7b\x7bproduct_name\x7d\x7d" product_name
  str_replace c4 "\x7b\x7bcustomer_email\x7d\x7d" customer.email

/-- The exception raised by the call `self._personalize(base_content, customer,
channel)` at services.py:429: `_personalize` is defined with two parameters
(services.py:539), so the bound-method call receives one positional argument
too many and Python raises TypeError before anything is written. -/
def personalizeCallErr : PyErr :=
  PyErr.typeError "_personalize() takes 3 positional arguments but 4 were given"

/-- One customer's channel loop inside `build_messages` (services.py:424-449):
per resolved channel, pick the template (services.py:425-426), skip the channel
when the content is falsy (services.py:427-428), and otherwise reach the
`_personalize` call of services.py:429, which raises `TypeError`.  The upsert
and counter lines 430-449 are unreachable. -/
def build_channels_scan (content : Content) (variant : Option Variant) : List String → Option PyErr
  | [] => none
  | ch :: rest =>
    let tkey := template_key ch
    let base := variant_content content tkey variant
    if pyFalsy base then build_channels_scan content variant rest
    else some personalizeCallErr

/-- The customer loop of `build_messages` (services.py:422-449): the first
customer/channel pair with non-falsy content raises. -/
def build_scan_customers (camp : CampaignState) (content : Content) (variant : Option Variant) :
    List Customer → Option PyErr
  | [] => none
  | c :: cs =>
    match build_channels_scan content variant (resolve_channels camp c) with
    | some e => some e
    | none => build_scan_customers camp content variant cs

/-- Models `CampaignOrchestrator.build_messages`, services.py:413-455.  Because the
`_personalize` call at services.py:429 raises `TypeError` for any channel with
non-falsy content, no `CampaignMessage` row is ever upserted: either some
channel has content and the call raises with the database untouched, or every
channel is skipped, `created` stays 0 and only the batch `CampaignLog` of
services.py:450-454 is written.  The result pairs the Python outcome with the
post-call state. -/
def build_messages (st : St) (customers : List Customer) (content : Content)
    (variant : Option Variant) : Except PyErr Nat × St :=
  match build_scan_customers st.campaign content variant customers with
  | some e => (Except.error e, st)
  | none =>
    (Except.ok 0,
      { st with logs := st.logs ++ [{ action := "Messages prepared", details := "created=0" }] })

/-- Outcome of one external provider call, supplied by the environment: the
provider either accepts (returning a receipt id, e.g. Twilio's `resp.sid`) or
the call raises (network error, provider rejection). -/
inductive Outcome where
  | ok : String → Outcome
  | fail : String → Outcome

/-- Models `BulkMessenger.DispatchResult`, services.py:244-248, with the `metadata`
dict split into its two possible keys (`channel`, `note`). -/
structure DispatchResult where
  status : MStatus
  channel_note : Option String := none
  note : Option String := none
  external_id : Option String := none
deriving DecidableEq, Repr

/-- Provider configuration read by `BulkMessenger` (services.py:235-242):
whether the Twilio client and the SMS API key are configured. -/
structure Env where
  twilio_ok : Bool := true
  sms_ok : Bool := true
deriving DecidableEq, Repr

/-- Models `BulkMessenger.dispatch_message` and the per-channel senders,
services.py:250-327.  Email delegates to `send_mail` (may raise → oracle);
WhatsApp checks configuration and the phone number then calls Twilio
(services.py:287-305); SMS checks configuration and phone, then always
succeeds with receipt `sms-<id>` (placeholder provider, services.py:307-319);
the social channels always succeed (services.py:321-327); any other channel
value hits the fall-through of services.py:263-266. -/
def dispatch_message (env : Env) (o : Outcome) (m : Msg) : Except String DispatchResult :=
  if m.channel = "email" then
    match o with
    | Outcome.ok _ => Except.ok { status := .sent, channel_note := some "email" }
    | Outcome.fail e => Except.error e
  else if m.channel = "whatsapp" then
    if ¬ env.twilio_ok then Except.error "WhatsApp provider is not configured"
    else if m.customer.phone_number = "" then
      Except.error "Customer does not have a WhatsApp-compatible number"
    else
      match o with
      | Outcome.ok sid =>
        Except.ok { status := .sent, channel_note := some "whatsapp", external_id := some sid }
      | Outcome.fail e => Except.error ("WhatsApp send failed: " ++ e)
  else if m.channel = "sms" then
    if ¬ env.sms_ok then Except.error "SMS provider is not configured"
    else if m.customer.phone_number = "" then
      Except.error "Customer does not have a SMS-compatible number"
    else
      Except.ok { status := .sent, channel_note := some "sms",
                  external_id := some ("sms-" ++ toString m.id) }
  else if m.channel = "facebook" ∨ m.channel = "instagram" ∨ m.channel = "twitter" then
    Except.ok { status := .sent, channel_note := some m.channel }
  else
    Except.ok { status := .sent, note := some "Social asset ready" }

/-- Look a message row up by primary key. -/
def find_msg (st : St) (i : Nat) : Option Msg :=
  st.messages.find? (fun m => decide (m.id = i))

/-- Persist a message row (replace by primary key). -/
def set_msg (msgs : List Msg) (m : Msg) : List Msg :=
  msgs.map (fun x => if x.id = m.id then m else x)

/-- Append a `CampaignLog` row. -/
def add_log (st : St) (l : LogEntry) : St :=
  { st with logs := st.logs ++ [l] }

/-- The metadata merge `{**(message.metadata or {}), **result.metadata}` of
services.py:572: keys present in the dispatch result overwrite. -/
def merge_meta (meta : MsgMeta) (r : DispatchResult) : MsgMeta :=
  { meta with
    channel_note := match r.channel_note with
      | some s => some s
      | none => meta.channel_note,
    note := match r.note with
      | some s => some s
      | none => meta.note }

/-- The message row as persisted by `_handle_success` (services.py:568-573). -/
def success_row (m : Msg) (r : DispatchResult) : Msg :=
  { m with
    status := r.status,
    sent_at := true,
    external_id := match r.external_id with
      | some s => some s
      | none => m.external_id,
    last_error := "",
    metadata := merge_meta m.metadata r }

/-- Models `CampaignOrchestrator._handle_success`, services.py:567-579. -/
def handle_success (st : St) (m : Msg) (r : DispatchResult) : St :=
  add_log { st with messages := set_msg st.messages (success_row m r) }
    { action := "Message sent", message_id := some m.id }

/-- The fallback row created by `_queue_fallback`'s `get_or_create` defaults
(services.py:592-605); non-default fields take the model defaults of
`CampaignMessage` (attempts 0, max_attempts 3, empty error, no receipt). -/
def fallback_row (n : Nat) (m : Msg) (next_channel : String) (rest : List String) : Msg :=
  { id := n,
    customer := m.customer,
    channel := next_channel,
    content := m.content,
    status := .pending,
    metadata := { m.metadata with
      fallback_channels := rest,
      fallback_of := some m.id },
    variant_label := m.variant_label }

/-- Models `CampaignOrchestrator._queue_fallback`, services.py:587-612: no-op when
the metadata carries no fallback channels; otherwise `get_or_create` keyed by
(campaign, customer, next channel) — an existing row is left untouched, a
missing one is created with the copied content, the shrunk fallback list and
a `fallback_of` pointer — followed by a "Fallback scheduled" log. -/
def queue_fallback (st : St) (m : Msg) : St :=
  match m.metadata.fallback_channels with
  | [] => st
  | next_channel :: rest =>
    let st1 :=
      if st.messages.any (fun x => decide (x.customer.id = m.customer.id ∧ x.channel = next_channel)) then st
      else
        { st with
          messages := st.messages ++ [fallback_row st.next_id m next_channel rest],
          next_id := st.next_id + 1 }
    add_log st1 { action := "Fallback scheduled", message_id := some m.id, details := next_channel }

/-- The message row as persisted by `_handle_failure` (services.py:554-557). -/
def failure_row (m : Msg) (error : String) : Msg :=
  { m with
    last_error := error.take 500,
    status := if m.attempts < m.max_attempts then MStatus.pending else MStatus.failed }

/-- Models `CampaignOrchestrator._handle_failure`, services.py:553-565. -/
def handle_failure (st : St) (m : Msg) (error : String) : St :=
  let st1 := add_log { st with messages := set_msg st.messages (failure_row m error) }
    { action := "Message failed", message_id := some m.id, details := error }
  if m.attempts < m.max_attempts then st1 else queue_fallback st1 (failure_row m error)

/-- Membership test of the pending-statuses filter, services.py:460-468. -/
def is_pending_or_scheduled (m : Msg) : Bool :=
  decide (m.status = .pending ∨ m.status = .scheduled)

/-- One iteration of the delivery loop, services.py:474-485: mark `sending`,
increment `attempts`, persist, dispatch, then the success/failure handler.
The Bool reports whether the dispatch succeeded (for the `sent`/`failed`
counters). -/
def sending_row (m : Msg) : Msg :=
  { m with status := MStatus.sending, attempts := m.attempts + 1 }

def step_msg (env : Env) (o : Outcome) (st : St) (i : Nat) : Bool × St :=
  match find_msg st i with
  | none => (true, st)
  | some m =>
    let stA := { st with messages := set_msg st.messages (sending_row m) }
    match dispatch_message env o (sending_row m) with
    | Except.ok r => (true, handle_success stA (sending_row m) r)
    | Except.error e => (false, handle_failure stA (sending_row m) e)

/-- The delivery loop over the snapshot of selected message ids,
services.py:474-485, returning (sent count, failed count, state).  The
outcome oracle is consumed positionally. -/
def run_ids (env : Env) (outs : Nat → Outcome) : List Nat → St → Nat × Nat × St
  | [], st => (0, 0, st)
  | i :: rest, st =>
    let p := step_msg env (outs 0) st i
    let r := run_ids env (fun n => outs (n + 1)) rest p.2
    if p.1 then (r.1 + 1, r.2.1, r.2.2) else (r.1, r.2.1 + 1, r.2.2)

/-- Count of a campaign's messages in a given status (the filtered `Count`
aggregates of services.py:494-498). -/
def count_status (msgs : List Msg) (s : MStatus) : Nat :=
  (msgs.filter (fun m => decide (m.status = s))).length

/-- Python dict lookup on an association list (keys unique). -/
def al_get {α : Type} : List (String × α) → String → Option α
  | [], _ => none
  | p :: tl, k => if p.1 = k then some p.2 else al_get tl k

/-- Python dict assignment `d[k] = v`: replace in place when the key exists,
append otherwise. -/
def al_set {α : Type} : List (String × α) → String → α → List (String × α)
  | [], k, v => [(k, v)]
  | p :: tl, k, v => if p.1 = k then (k, v) :: tl else p :: al_set tl k v

/-- Models `CampaignOrchestrator.refresh_metrics`, services.py:493-501: recompute the
`sent`/`opened`/`clicked` counters from the message rows and merge them into
the stored metrics dict with `dict.update` semantics.  The `last_run_at`
timestamp also written there carries no claim-relevant information. -/
def refresh_metrics (st : St) : St :=
  let m1 := al_set st.campaign.metrics "sent" (PyVal.num (count_status st.messages .sent))
  let m2 := al_set m1 "opened" (PyVal.num (count_status st.messages .opened))
  let m3 := al_set m2 "clicked" (PyVal.num (count_status st.messages .clicked))
  { st with campaign := { st.campaign with metrics := m3 } }

/-- Models `CampaignOrchestrator._finalize`, services.py:581-585: set the campaign
status and emit one notification. -/
def finalize (st : St) (s : CStatus) : St :=
  { st with
    campaign := { st.campaign with status := s },
    notifications := st.notifications + 1 }

/-- Models `CampaignOrchestrator.send_pending_messages`, services.py:457-491.  The
draft guard raises `ValueError` before any state change; otherwise the
pending/scheduled rows are snapshotted oldest-first, the campaign is set
`running`, each snapshot row is driven through dispatch, metrics are
refreshed, and the campaign is finalized when no pending/scheduled rows
remain.  The result pairs the Python outcome with the post-call state. -/
def send_pending_messages (env : Env) (outs : Nat → Outcome) (force : Bool) (st : St) :
    Except PyErr (Nat × Nat) × St :=
  if ¬ force ∧ st.campaign.status = .draft then
    (Except.error (PyErr.valueError "Campaign must be scheduled or running before dispatch"), st)
  else
    let snapshot := (st.messages.filter is_pending_or_scheduled).map (fun m => m.id)
    if snapshot.isEmpty then (Except.ok (0, 0), st)
    else
      let st1 := { st with campaign := { st.campaign with status := .running } }
      let r := run_ids env outs snapshot st1
      let st3 := refresh_metrics r.2.2
      let remaining := (st3.messages.filter is_pending_or_scheduled).length
      let st4 :=
        if remaining = 0 then
          finalize st3 (if r.2.1 ≠ 0 then CStatus.failed else CStatus.completed)
        else st3
      (Except.ok (r.1, r.2.1), st4)

/-- Per-variant status count over the campaign's messages (the grouped
aggregate of services.py:722-726). -/
def variant_msg_count (msgs : List Msg) (label : String) (s : MStatus) : Nat :=
  (msgs.filter (fun m => decide (m.variant_label = some label ∧ m.status = s))).length

/-- The variant-metrics recomputation loop of
`CampaignAnalyticsService.update_campaign_metrics`, services.py:722-737:
variants with at least one message get their metrics dict rewritten from the
grouped counts; variants with no messages keep their stored metrics (no group
row exists for them). -/
def recompute_variant_metrics (st : St) : List Variant :=
  st.variants.map (fun v =>
    if st.messages.any (fun m => decide (m.variant_label = some v.label)) then
      { v with metrics := {
          sent := variant_msg_count st.messages v.label .sent,
          delivered := variant_msg_count st.messages v.label .sent,
          opened := variant_msg_count st.messages v.label .opened,
          clicked := variant_msg_count st.messages v.label .clicked,
          conversions := 0 } }
    else v)

/-- The strict lexicographic comparison behind
`order_by('-metrics__clicked', '-metrics__opened')`. -/
def lex_better (a b : VMetrics) : Prop :=
  b.clicked < a.clicked ∨ (a.clicked = b.clicked ∧ b.opened < a.opened)

instance (a b : VMetrics) : Decidable (lex_better a b) := by
  unfold lex_better
  infer_instance

/-- Models `campaign.variants.order_by('-metrics__clicked', '-metrics__opened')
.first()`: some maximal variant under the lexicographic (clicked, opened)
order.  The SQL order among exact ties is backend-dependent; this embedding
keeps the earliest-listed maximal variant, and the winner theorem only relies
on a unique maximum. -/
def select_winner : List Variant → Option Variant
  | [] => none
  | v :: vs =>
    match select_winner vs with
    | none => some v
    | some w => if lex_better w.metrics v.metrics then some w else some v

/-- Models `CampaignAnalyticsService.update_campaign_metrics`, services.py:721-745:
recompute per-variant metrics, then pick the winner; if it is not already
flagged, clear `is_winner` on all variants, set it on the winner and record
the label in the campaign's optimization metadata. -/
def update_campaign_metrics (st : St) : St :=
  let vs1 := recompute_variant_metrics st
  let stA := { st with variants := vs1 }
  match select_winner vs1 with
  | none => stA
  | some w =>
    if w.is_winner then stA
    else
      { stA with
        variants := vs1.map (fun v =>
          if v.label = w.label then { v with is_winner := true }
          else { v with is_winner := false }),
        campaign := { stA.campaign with
          optimization_metadata := al_set stA.campaign.optimization_metadata "winner" w.label } }

/-- One invocation of the delivery loop with its environment, provider
outcomes and force flag. -/
structure Pass where
  env : Env := {}
  outs : Nat → Outcome
  force : Bool := true

/-- The post-state of one `send_pending_messages` call (an exception leaves
the state as the call found it). -/
def run_pass (p : Pass) (st : St) : St :=
  (send_pending_messages p.env p.outs p.force st).2

/-- A sequence of delivery-loop invocations (the external re-invocation
cadence that paces retries). -/
def run_passes : List Pass → St → St
  | [], st => st
  | p :: ps, st => run_passes ps (run_pass p st)

/-! ### Association-list (Python dict) lemmas -/

theorem al_get_set_self {α : Type} (d : List (String × α)) (k : String) (v : α) :
    al_get (al_set d k v) k = some v := by
  induction d with
  | nil => simp [al_set, al_get]
  | cons p tl ih =>
    by_cases h : p.1 = k
    · simp [al_set, al_get, h]
    · simp [al_set, al_get, h, ih]

theorem al_get_set_other {α : Type} (d : List (String × α)) (k k' : String) (v : α)
    (h : k' ≠ k) : al_get (al_set d k v) k' = al_get d k' := by
  induction d with
  | nil => simp [al_set, al_get, Ne.symm h]
  | cons p tl ih =>
    by_cases hp : p.1 = k
    · subst hp
      simp [al_set, al_get, Ne.symm h]
    · simp [al_set, al_get, hp, ih]

/-! ### Channel-resolution lemmas -/

theorem resolve_step_excludes (enabled : List String) (c : Customer) (h : c.phone_number = "")
    (bad : String) (hb : bad = "whatsapp" ∨ bad = "sms")
    (acc : List String) (ha : bad ∉ acc) (ch : String) :
    bad ∉ resolve_step enabled c acc ch := by
  unfold resolve_step
  split
  · exact ha
  · split
    · exact ha
    · split
      · exact ha
      · split
        · exact ha
        · rename_i h1 h2 h3 h4
          intro hmem
          rcases List.mem_append.mp hmem with hin | hin
          · exact ha hin
          · have : bad = ch := List.mem_singleton.mp hin
            subst this
            rcases hb with hb | hb <;> subst hb
            · exact h2 ⟨rfl, h⟩
            · exact h3 ⟨rfl, h⟩

theorem resolve_fold_excludes (enabled : List String) (c : Customer) (h : c.phone_number = "")
    (bad : String) (hb : bad = "whatsapp" ∨ bad = "sms") :
    ∀ (l acc : List String), bad ∉ acc → bad ∉ l.foldl (resolve_step enabled c) acc := by
  intro l
  induction l with
  | nil => intro acc ha; simpa using ha
  | cons ch tl ih =>
    intro acc ha
    simpa using ih (resolve_step enabled c acc ch)
      (resolve_step_excludes enabled c h bad hb acc ha ch)

theorem resolve_channels_no_phone (camp : CampaignState) (c : Customer)
    (h : c.phone_number = "") (bad : String) (hb : bad = "whatsapp" ∨ bad = "sms") :
    bad ∉ resolve_channels camp c := by
  unfold resolve_channels
  exact resolve_fold_excludes _ c h bad hb _ [] (by simp)

theorem fallback_channels_subset (camp : CampaignState) (primary : String) (c : Customer) :
    ∀ ch ∈ fallback_channels camp primary c, ch ∈ resolve_channels camp c := by
  intro ch hch
  exact (List.mem_filter.mp hch).1

/-- Fact: `build_messages` never writes a message row: every channel with content
hits the TypeError of services.py:429 before the upsert, and content-free
channels are skipped. -/
theorem build_messages_messages (st : St) (customers : List Customer) (content : Content)
    (variant : Option Variant) :
    (build_messages st customers content variant).2.messages = st.messages := by
  unfold build_messages
  cases h : build_scan_customers st.campaign content variant customers <;> simp

/-! ### Claim C9: draft guard -/

/-- C9 — Draft guard: on a campaign in `draft` status, `send_pending_messages`
with `force = false` raises the policy `ValueError` of services.py:458-459 and
leaves the whole state (campaign record, messages, logs, metrics,
notifications) unchanged. -/
theorem draft_guard_raises (env : Env) (outs : Nat → Outcome) (st : St)
    (h : st.campaign.status = CStatus.draft) :
    send_pending_messages env outs false st =
      (Except.error (PyErr.valueError "Campaign must be scheduled or running before dispatch"), st) := by
  unfold send_pending_messages
  simp [h]

/-- Sample draft-campaign state with one pending message. -/
def draftSampleMsg : Msg :=
  { id := 0, customer := { id := 7, email := "d@x.com" }, channel := "email", content := "hi" }

/-- Sample state for the draft-guard witness. -/
def draftSampleSt : St :=
  { campaign := { status := .draft, channels := [("email", true)] },
    messages := [draftSampleMsg], next_id := 1 }

/-- Witness for C9 at a concrete draft campaign with a pending message. -/
theorem draft_guard_raises_witness :
    send_pending_messages {} (fun _ => Outcome.ok "sid") false draftSampleSt =
      (Except.error (PyErr.valueError "Campaign must be scheduled or running before dispatch"),
        draftSampleSt) :=
  draft_guard_raises {} (fun _ => Outcome.ok "sid") draftSampleSt rfl

/-! ### Claim C7: metrics consistency and frame -/

/-- C7 — Metrics refresh: after `refresh_metrics`, the stored `sent`, `opened`
and `clicked` entries equal the exact counts of the campaign's messages in
those statuses, and every other key of the metrics map (e.g. `revenue`) is
looked up to exactly its previous value. -/
theorem refresh_metrics_spec (st : St) :
    al_get (refresh_metrics st).campaign.metrics "sent"
        = some (PyVal.num (count_status st.messages MStatus.sent)) ∧
    al_get (refresh_metrics st).campaign.metrics "opened"
        = some (PyVal.num (count_status st.messages MStatus.opened)) ∧
    al_get (refresh_metrics st).campaign.metrics "clicked"
        = some (PyVal.num (count_status st.messages MStatus.clicked)) ∧
    ∀ k, k ≠ "sent" → k ≠ "opened" → k ≠ "clicked" →
      al_get (refresh_metrics st).campaign.metrics k = al_get st.campaign.metrics k := by
  refine ⟨?_, ?_, ?_, ?_⟩
  · unfold refresh_metrics
    rw [al_get_set_other _ _ _ _ (by decide), al_get_set_other _ _ _ _ (by decide),
      al_get_set_self]
  · unfold refresh_metrics
    rw [al_get_set_other _ _ _ _ (by decide), al_get_set_self]
  · unfold refresh_metrics
    rw [al_get_set_self]
  · intro k h1 h2 h3
    unfold refresh_metrics
    rw [al_get_set_other _ _ _ _ h3, al_get_set_other _ _ _ _ h2, al_get_set_other _ _ _ _ h1]

/-- Sample state for the metrics witness: one sent message, one opened
message, and a metrics map carrying a custom `revenue` value. -/
def metricsSampleSt : St :=
  { campaign := { metrics := [("revenue", PyVal.num 250), ("sent", PyVal.num 0)] },
    messages := [
      { id := 0, customer := { id := 1 }, channel := "email", status := .sent },
      { id := 1, customer := { id := 1 }, channel := "sms", status := .opened }],
    next_id := 2 }

/-- Witness for C7 at a concrete state: the counters are refreshed and the
foreign `revenue` key keeps its value. -/
theorem refresh_metrics_spec_witness :
    al_get (refresh_metrics metricsSampleSt).campaign.metrics "sent"
        = some (PyVal.num (count_status metricsSampleSt.messages MStatus.sent)) ∧
    al_get (refresh_metrics metricsSampleSt).campaign.metrics "revenue"
        = al_get metricsSampleSt.campaign.metrics "revenue" :=
  ⟨(refresh_metrics_spec metricsSampleSt).1,
    (refresh_metrics_spec metricsSampleSt).2.2.2 "revenue" (by decide) (by decide) (by decide)⟩

/-! ### Claim C6: fallback chain termination -/

/-- C6 — Fallback shrinkage: a message whose metadata carries no fallback
channels spawns nothing (the state is untouched), and any message row newly
created by `_queue_fallback` carries a fallback list exactly one element
shorter than the failed message's list — so chains of fallback spawns are
strictly decreasing and finite. -/
theorem queue_fallback_shrinks (st : St) (m : Msg) :
    (m.metadata.fallback_channels = [] → queue_fallback st m = st) ∧
    (∀ nm ∈ (queue_fallback st m).messages, nm ∉ st.messages →
      nm.metadata.fallback_channels.length + 1 = m.metadata.fallback_channels.length) := by
  constructor
  · intro h
    unfold queue_fallback
    rw [h]
  · intro nm hmem hnot
    unfold queue_fallback at hmem
    cases h : m.metadata.fallback_channels with
    | nil =>
      rw [h] at hmem
      exact absurd hmem hnot
    | cons next rest =>
      rw [h] at hmem
      by_cases hex :
          st.messages.any (fun x => decide (x.customer.id = m.customer.id ∧ x.channel = next))
      · simp only [add_log, hex, if_true] at hmem
        exact absurd hmem hnot
      · simp only [add_log, hex, if_false] at hmem
        simp only [Bool.false_eq_true] at hmem
        rcases List.mem_append.mp hmem with hin | hin
        · exact absurd hin hnot
        · have hnm := List.mem_singleton.mp hin
          subst hnm
          simp [h, fallback_row]

/-- Sample failed message with an empty fallback list. -/
def fbEmptyMsg : Msg :=
  { id := 3, customer := { id := 9 }, channel := "email", status := .failed }

/-- Sample state owning `fbEmptyMsg`. -/
def fbSampleSt : St := { messages := [fbEmptyMsg], next_id := 4 }

/-- Witness for C6: a message with an empty fallback list spawns nothing. -/
theorem queue_fallback_shrinks_witness :
    queue_fallback fbSampleSt fbEmptyMsg = fbSampleSt :=
  (queue_fallback_shrinks fbSampleSt fbEmptyMsg).1 rfl

/-! ### Claim C10: fallback spawn never overwrites -/

/-- C10 — Fallback upsert is `get_or_create`: when a row for (campaign,
customer, first fallback channel) already exists, the message table is left
exactly as it was — the existing row keeps its status, content and metadata;
only when no such row exists is a new row appended, carrying the copied
content, the shrunk fallback list and the `fallback_of` pointer. -/
theorem queue_fallback_no_overwrite (st : St) (m : Msg) (next : String) (rest : List String)
    (hfb : m.metadata.fallback_channels = next :: rest) :
    ((∃ x ∈ st.messages, x.customer.id = m.customer.id ∧ x.channel = next) →
      (queue_fallback st m).messages = st.messages) ∧
    ((¬ ∃ x ∈ st.messages, x.customer.id = m.customer.id ∧ x.channel = next) →
      (queue_fallback st m).messages = st.messages ++ [{
        id := st.next_id,
        customer := m.customer,
        channel := next,
        content := m.content,
        status := .pending,
        metadata := { m.metadata with
          fallback_channels := rest,
          fallback_of := some m.id },
        variant_label := m.variant_label }]) := by
  constructor
  · intro hex
    have hany : st.messages.any
        (fun x => decide (x.customer.id = m.customer.id ∧ x.channel = next)) = true := by
      rcases hex with ⟨x, hx, hp⟩
      exact List.any_eq_true.mpr ⟨x, hx, by simpa using hp⟩
    unfold queue_fallback
    rw [hfb]
    simp only [add_log, hany]
    simp
  · intro hex
    have hany : st.messages.any
        (fun x => decide (x.customer.id = m.customer.id ∧ x.channel = next)) = false := by
      by_contra hc
      have := List.any_eq_true.mp (Bool.of_not_eq_false hc)
      rcases this with ⟨x, hx, hp⟩
      exact hex ⟨x, hx, by simpa using hp⟩
    unfold queue_fallback
    rw [hfb]
    simp only [add_log, hany]
    simp [fallback_row]

/-- Sample failed WhatsApp message whose first fallback channel is `email`. -/
def fbBusyMsg : Msg :=
  { id := 1, customer := { id := 5, email := "e@x.com" }, channel := "whatsapp",
    content := "offer", status := .failed,
    metadata := { fallback_channels := ["email", "sms"] } }

/-- Pre-existing pending email row for the same customer, with its own
content and metadata. -/
def fbExistingMsg : Msg :=
  { id := 0, customer := { id := 5, email := "e@x.com" }, channel := "email",
    content := "original email copy", status := .sent }

/-- Sample state where the fallback target row already exists. -/
def fbBusySt : St := { messages := [fbExistingMsg, fbBusyMsg], next_id := 2 }

/-- Witness for C10: with an existing (customer, email) row, the fallback
spawn leaves the message table unchanged. -/
theorem queue_fallback_no_overwrite_witness :
    (queue_fallback fbBusySt fbBusyMsg).messages = fbBusySt.messages :=
  (queue_fallback_no_overwrite fbBusySt fbBusyMsg "email" ["sms"] rfl).1
    ⟨fbExistingMsg, by decide, by decide, by decide⟩

/-! ### Claim C4: channel eligibility -/

/-- C4 — Channel eligibility: for a customer without a phone number,
`_resolve_channels` never yields `whatsapp` or `sms` for any campaign
configuration, `_fallback_channels` (the metadata that later fallback spawns
draw from) never contains them either, and `build_messages` adds no message
row at all — in particular none on those channels — for any inputs. -/
theorem channel_eligibility (camp : CampaignState) (c : Customer)
    (h : c.phone_number = "") :
    ("whatsapp" ∉ resolve_channels camp c ∧ "sms" ∉ resolve_channels camp c) ∧
    (∀ primary, "whatsapp" ∉ fallback_channels camp primary c ∧
      "sms" ∉ fallback_channels camp primary c) ∧
    (∀ (st : St) (customers : List Customer) (content : Content) (variant : Option Variant),
      ∀ nm ∈ (build_messages st customers content variant).2.messages, nm ∈ st.messages) := by
  refine ⟨⟨?_, ?_⟩, ?_, ?_⟩
  · exact resolve_channels_no_phone camp c h "whatsapp" (Or.inl rfl)
  · exact resolve_channels_no_phone camp c h "sms" (Or.inr rfl)
  · intro primary
    constructor
    · intro hmem
      exact resolve_channels_no_phone camp c h "whatsapp" (Or.inl rfl)
        (fallback_channels_subset camp primary c _ hmem)
    · intro hmem
      exact resolve_channels_no_phone camp c h "sms" (Or.inr rfl)
        (fallback_channels_subset camp primary c _ hmem)
  · intro st customers content variant nm hmem
    rw [build_messages_messages] at hmem
    exact hmem

/-- Phone-less customer who even prefers WhatsApp and SMS. -/
def noPhoneCustomer : Customer :=
  { id := 11, email := "n@x.com", preferred_channels := ["whatsapp", "sms", "email"] }

/-- Campaign with every phone channel enabled. -/
def allChannelsCamp : CampaignState :=
  { status := .scheduled, channels := [("email", true), ("whatsapp", true), ("sms", true)] }

/-- Witness for C4: the concrete resolution keeps only `email`. -/
theorem channel_eligibility_witness :
    "whatsapp" ∉ resolve_channels allChannelsCamp noPhoneCustomer ∧
    "sms" ∉ resolve_channels allChannelsCamp noPhoneCustomer :=
  (channel_eligibility allChannelsCamp noPhoneCustomer rfl).1

/-! ### Claims C1-C3: the `_personalize` arity bug

The call at services.py:429 passes `(base_content, customer, channel)` to
`_personalize`, which is defined at services.py:539 with parameters
`(self, template, customer)`.  Python therefore raises
`TypeError: _personalize() takes 3 positional arguments but 4 were given`
the first time any resolved channel has non-falsy content, before the
`update_or_create` of services.py:443-448 can run. -/

/-- Alice: an email address, a first name, and no phone number. -/
def e2eAlice : Customer := { id := 1, email := "alice@example.com", first_name := "Alice" }

/-- The end-to-end scenario campaign: draft, channels = {email, whatsapp}. -/
def e2eCampaign : CampaignState :=
  { status := .draft, channels := [("email", true), ("whatsapp", true)] }

/-- The end-to-end scenario content. -/
def e2eContent : Content :=
  { email_body := some "Hi \x7b\x7bfirst_name\x7d\x7d", whatsapp_message := some "..." }

/-- The end-to-end scenario initial state: no messages yet. -/
def e2eSt : St := { campaign := e2eCampaign }

/-- C1 — End-to-end scenario, evaluated on the code: `build_messages` raises
the `TypeError` of the services.py:429 arity mismatch instead of producing one
email message, the state is untouched, and the subsequent
`send_pending_messages(force=True)` with a succeeding provider therefore finds
no pending rows, returns `{sent: 0, failed: 0}` and leaves the campaign in
`draft` — not `{sent: 1, failed: 0}` with a `draft→running→completed`
transition as claimed. -/
theorem end_to_end_scenario_blocked :
    build_messages e2eSt [e2eAlice] e2eContent none = (Except.error personalizeCallErr, e2eSt) ∧
    send_pending_messages {} (fun _ => Outcome.ok "provider-sid") true e2eSt =
      (Except.ok (0, 0), e2eSt) ∧
    e2eSt.campaign.status = CStatus.draft := by
  refine ⟨?_, ?_, rfl⟩ <;> decide

/-- Bob, for the personalization claim. -/
def persBob : Customer := { id := 2, email := "bob@x.com", first_name := "Bob" }

/-- Campaign with a linked product, for `product_name` substitution. -/
def persCampaign : CampaignState :=
  { status := .scheduled, channels := [("email", true)],
    product := some { name := "Widget" } }

/-- State owning `persCampaign`. -/
def persSt : St := { campaign := persCampaign }

/-- Content whose email body exercises known and unknown tokens. -/
def persContent : Content :=
  { email_body := some "Hi \x7b\x7bfirst_name\x7d\x7d, try \x7b\x7bproduct_name\x7d\x7d! \x7b\x7bunknown\x7d\x7d" }

/-- C2 — Personalization, evaluated on the code: the personalization step of
`build_messages` does not complete — the call of services.py:429 raises the
arity `TypeError` for every template actually processed — even though the
`_personalize` function itself (services.py:539-551), called as defined,
would substitute the known tokens and leave unknown tokens verbatim. -/
theorem personalization_step_raises :
    build_messages persSt [persBob] persContent none = (Except.error personalizeCallErr, persSt) ∧
    personalize persCampaign "Hi \x7b\x7bfirst_name\x7d\x7d, try \x7b\x7bproduct_name\x7d\x7d! \x7b\x7bunknown\x7d\x7d" persBob
      = "Hi Bob, try Widget! \x7b\x7bunknown\x7d\x7d" := by
  constructor <;> decide

/-- Carol, for the idempotent-build claim. -/
def idemCarol : Customer := { id := 3, email := "carol@x.com", first_name := "Carol" }

/-- Campaign for the idempotent-build claim. -/
def idemCampaign : CampaignState :=
  { status := .scheduled, channels := [("email", true)] }

/-- State for the idempotent-build claim. -/
def idemSt : St := { campaign := idemCampaign }

/-- Content for the idempotent-build claim. -/
def idemContent : Content := { email_body := some "hello \x7b\x7bfirst_name\x7d\x7d" }

/-- C3 — Idempotent build, evaluated on the code: on any input whose content
matches a resolved channel, `build_messages` returns no count at all — both
the first and the second identical call raise the services.py:429 arity
`TypeError` — and no `CampaignMessage` row is ever written, so the claimed
"same count both times" behaviour is unreachable (the `update_or_create`
upsert of services.py:443-448 is dead code). -/
theorem idempotent_build_blocked :
    (build_messages idemSt [idemCarol] idemContent none).1 = Except.error personalizeCallErr ∧
    (build_messages (build_messages idemSt [idemCarol] idemContent none).2
        [idemCarol] idemContent none).1 = Except.error personalizeCallErr ∧
    (build_messages (build_messages idemSt [idemCarol] idemContent none).2
        [idemCarol] idemContent none).2.messages = idemSt.messages := by
  refine ⟨?_, ?_, ?_⟩ <;> decide

/-! ### Claim C8: winner selection -/

theorem lex_better_asymm (a b : VMetrics) (h : lex_better a b) : ¬ lex_better b a := by
  unfold lex_better at h ⊢
  omega

theorem select_winner_mem : ∀ (vs : List Variant) (w : Variant),
    select_winner vs = some w → w ∈ vs := by
  intro vs
  induction vs with
  | nil => intro w h; simp [select_winner] at h
  | cons v tl ih =>
    intro w h
    unfold select_winner at h
    split at h
    · cases h
      exact List.mem_cons_self _ _
    · rename_i u hu
      split at h
      · cases h
        exact List.mem_cons_of_mem _ (ih _ hu)
      · cases h
        exact List.mem_cons_self _ _

theorem variant_label_unique : ∀ (vs : List Variant),
    (vs.map (fun v => v.label)).Nodup →
    ∀ v1 ∈ vs, ∀ v2 ∈ vs, v1.label = v2.label → v1 = v2 := by
  intro vs
  induction vs with
  | nil => intro _ v1 h1; simp at h1
  | cons v tl ih =>
    intro hnd v1 h1 v2 h2 hlab
    have hnotin : v.label ∉ tl.map (fun x => x.label) := (List.nodup_cons.mp hnd).1
    have hndtl : (tl.map (fun x => x.label)).Nodup := (List.nodup_cons.mp hnd).2
    rcases List.mem_cons.mp h1 with e1 | m1 <;> rcases List.mem_cons.mp h2 with e2 | m2
    · rw [e1, e2]
    · subst e1
      rw [hlab] at hnotin
      exact absurd (List.mem_map_of_mem _ m2) hnotin
    · subst e2
      rw [← hlab] at hnotin
      exact absurd (List.mem_map_of_mem _ m1) hnotin
    · exact ih hndtl v1 m1 v2 m2 hlab

theorem select_winner_unique_max : ∀ (vs : List Variant) (w : Variant),
    w ∈ vs →
    (∀ v ∈ vs, v.label ≠ w.label → lex_better w.metrics v.metrics) →
    (vs.map (fun v => v.label)).Nodup →
    select_winner vs = some w := by
  intro vs
  induction vs with
  | nil => intro w hw; simp at hw
  | cons v tl ih =>
    intro w hw hmax hnd
    have hnotin : v.label ∉ tl.map (fun x => x.label) := (List.nodup_cons.mp hnd).1
    have hndtl : (tl.map (fun x => x.label)).Nodup := (List.nodup_cons.mp hnd).2
    rcases List.mem_cons.mp hw with hv | htl
    · subst hv
      cases hsel : select_winner tl with
      | none => simp [select_winner, hsel]
      | some u =>
        have hu : u ∈ tl := select_winner_mem tl u hsel
        have hulab : u.label ≠ w.label := by
          intro he
          rw [← he] at hnotin
          exact hnotin (List.mem_map_of_mem _ hu)
        have hwu : lex_better w.metrics u.metrics :=
          hmax u (List.mem_cons_of_mem _ hu) hulab
        simp only [select_winner, hsel]
        rw [if_neg (lex_better_asymm _ _ hwu)]
    · have hvlab : v.label ≠ w.label := by
        intro he
        rw [he] at hnotin
        exact hnotin (List.mem_map_of_mem _ htl)
      have hsel : select_winner tl = some w :=
        ih w htl (fun u hu => hmax u (List.mem_cons_of_mem _ hu)) hndtl
      have hwv : lex_better w.metrics v.metrics := hmax v (List.mem_cons_self _ _) hvlab
      simp only [select_winner, hsel]
      rw [if_pos hwv]

/-- C8 — Winner selection: after `update_campaign_metrics`, when the
recomputed variant metrics have a unique lexicographic (clicked, then opened)
maximum and the campaign starts with at most one flagged winner, exactly the
maximal variant carries `is_winner = true` and every sibling carries
`is_winner = false`. -/
theorem winner_selection (st : St) (w : Variant)
    (hw : w ∈ recompute_variant_metrics st)
    (hmax : ∀ v ∈ recompute_variant_metrics st, v.label ≠ w.label →
      lex_better w.metrics v.metrics)
    (hnd : ((recompute_variant_metrics st).map (fun v => v.label)).Nodup)
    (hone : ∀ v1 ∈ recompute_variant_metrics st, ∀ v2 ∈ recompute_variant_metrics st,
      v1.is_winner = true → v2.is_winner = true → v1 = v2) :
    ∀ v ∈ (update_campaign_metrics st).variants, (v.is_winner = true ↔ v.label = w.label) := by
  have hsel : select_winner (recompute_variant_metrics st) = some w :=
    select_winner_unique_max _ w hw hmax hnd
  have hvar : (update_campaign_metrics st).variants =
      (if w.is_winner = true then recompute_variant_metrics st
       else (recompute_variant_metrics st).map (fun v =>
         if v.label = w.label then { v with is_winner := true }
         else { v with is_winner := false })) := by
    simp only [update_campaign_metrics, hsel]
    by_cases hwin : w.is_winner = true
    · rw [if_pos hwin, if_pos hwin]
    · rw [if_neg hwin, if_neg hwin]
  intro v hv
  rw [hvar] at hv
  by_cases hwin : w.is_winner = true
  · rw [if_pos hwin] at hv
    constructor
    · intro hvw
      exact congrArg Variant.label (hone v hv w hw hvw hwin)
    · intro hlab
      rw [variant_label_unique _ hnd v hv w hw hlab]
      exact hwin
  · rw [if_neg hwin] at hv
    simp only [List.mem_map] at hv
    obtain ⟨u, hu, hvu⟩ := hv
    by_cases hul : u.label = w.label
    · rw [if_pos hul] at hvu
      constructor
      · intro _
        rw [← hvu]
        exact hul
      · intro _
        rw [← hvu]
    · rw [if_neg hul] at hvu
      constructor
      · intro hfalse
        rw [← hvu] at hfalse
        simp at hfalse
      · intro hlab
        rw [← hvu] at hlab
        exact absurd hlab hul

/-- Variant A: 10 clicked / 20 opened. -/
def abcA : Variant := { id := 0, label := "A", metrics := { opened := 20, clicked := 10 } }

/-- Variant B: 15 clicked / 5 opened. -/
def abcB : Variant := { id := 1, label := "B", metrics := { opened := 5, clicked := 15 } }

/-- Variant C: 15 clicked / 30 opened. -/
def abcC : Variant := { id := 2, label := "C", metrics := { opened := 30, clicked := 15 } }

/-- Campaign state carrying the three variants of the concrete instance. -/
def abcSt : St := { variants := [abcA, abcB, abcC] }

/-- Witness for C8 at the claim's concrete instance: with A = 10/20,
B = 15/5, C = 15/30, the aggregated state flags C (and only C, checked here
on the A row) as winner. -/
theorem winner_selection_witness :
    (({ abcC with is_winner := true } : Variant).is_winner = true ↔
      ({ abcC with is_winner := true } : Variant).label = abcC.label) ∧
    (abcA.is_winner = true ↔ abcA.label = abcC.label) :=
  ⟨winner_selection abcSt abcC (by decide) (by decide) (by decide) (by decide)
      { abcC with is_winner := true } (by decide),
    winner_selection abcSt abcC (by decide) (by decide) (by decide) (by decide)
      abcA (by decide)⟩

/-! ### Message-table infrastructure lemmas -/

theorem find_id_of_mem_nodup : ∀ (msgs : List Msg),
    (msgs.map (fun x => x.id)).Nodup →
    ∀ m ∈ msgs, msgs.find? (fun x => decide (x.id = m.id)) = some m := by
  intro msgs
  induction msgs with
  | nil => intro _ m hm; simp at hm
  | cons x tl ih =>
    intro hnd m hm
    have hnotin : x.id ∉ tl.map (fun y => y.id) := (List.nodup_cons.mp hnd).1
    have hndtl := (List.nodup_cons.mp hnd).2
    rcases List.mem_cons.mp hm with he | htl
    · subst he
      simp [List.find?]
    · have hne : x.id ≠ m.id := by
        intro he
        rw [he] at hnotin
        exact hnotin (List.mem_map_of_mem _ htl)
      simp only [List.find?, decide_eq_false hne]
      exact ih hndtl m htl

theorem set_msg_map_id (msgs : List Msg) (m : Msg) :
    (set_msg msgs m).map (fun x => x.id) = msgs.map (fun x => x.id) := by
  induction msgs with
  | nil => rfl
  | cons x tl ih =>
    simp only [set_msg, List.map_cons] at ih ⊢
    by_cases h : x.id = m.id
    · rw [if_pos h, h, ih]
    · rw [if_neg h, ih]

theorem mem_set_msg (msgs : List Msg) (m y : Msg) (hy : y ∈ set_msg msgs m) :
    y = m ∨ (y ∈ msgs ∧ y.id ≠ m.id) := by
  unfold set_msg at hy
  rcases List.mem_map.mp hy with ⟨x, hx, hxy⟩
  by_cases h : x.id = m.id
  · rw [if_pos h] at hxy
    exact Or.inl hxy.symm
  · rw [if_neg h] at hxy
    subst hxy
    exact Or.inr ⟨hx, h⟩

theorem find?_set_msg_ne (msgs : List Msg) (m : Msg) (j : Nat) (h : j ≠ m.id) :
    (set_msg msgs m).find? (fun x => decide (x.id = j)) =
      msgs.find? (fun x => decide (x.id = j)) := by
  induction msgs with
  | nil => rfl
  | cons x tl ih =>
    simp only [set_msg, List.map_cons] at ih ⊢
    by_cases hx : x.id = m.id
    · have h1 : decide (m.id = j) = false := decide_eq_false (fun he => h he.symm)
      have h2 : decide (x.id = j) = false :=
        decide_eq_false (fun he => h (he.symm.trans hx))
      rw [if_pos hx]
      simp only [List.find?, h1, h2]
      exact ih
    · rw [if_neg hx]
      by_cases hxj : x.id = j
      · simp [List.find?, hxj]
      · simp only [List.find?, decide_eq_false hxj]
        exact ih

theorem set_msg_set_msg (msgs : List Msg) (a b : Msg) (h : a.id = b.id) :
    set_msg (set_msg msgs a) b = set_msg msgs b := by
  induction msgs with
  | nil => rfl
  | cons x tl ih =>
    simp only [set_msg, List.map_cons] at ih ⊢
    by_cases hx : x.id = a.id
    · rw [if_pos hx, if_pos h, if_pos (hx.trans h)]
      exact congrArg _ ih
    · rw [if_neg hx]
      by_cases hxb : x.id = b.id
      · rw [if_pos hxb]
        exact congrArg _ ih
      · rw [if_neg hxb]
        exact congrArg _ ih

theorem find?_append_fresh (l1 : List Msg) (nm : Msg) (j : Nat) (h : nm.id ≠ j) :
    (l1 ++ [nm]).find? (fun x => decide (x.id = j)) =
      l1.find? (fun x => decide (x.id = j)) := by
  induction l1 with
  | nil => simp [List.find?, decide_eq_false h]
  | cons x tl ih =>
    by_cases hx : x.id = j
    · simp [List.find?, hx]
    · simp only [List.cons_append, List.find?, decide_eq_false hx]
      exact ih

theorem nodup_append_fresh (l : List Nat) (x : Nat) (hnd : l.Nodup) (hx : x ∉ l) :
    (l ++ [x]).Nodup := by
  simp [List.nodup_append, hnd, hx]

/-! ### Retry/fallback invariants -/

/-- Count of "Fallback scheduled" audit rows that reference message `i`. -/
def fb_pred (i : Nat) (l : LogEntry) : Bool :=
  decide (l.action = "Fallback scheduled" ∧ l.message_id = some i)

/-- Number of fallback spawns recorded for message `i` in a log list. -/
def fb_count_logs (logs : List LogEntry) (i : Nat) : Nat :=
  (logs.filter (fb_pred i)).length

/-- Number of fallback spawns recorded for message `i`. -/
def fb_count (st : St) (i : Nat) : Nat :=
  fb_count_logs st.logs i

theorem fb_count_logs_append (L1 L2 : List LogEntry) (i : Nat) :
    fb_count_logs (L1 ++ L2) i = fb_count_logs L1 i + fb_count_logs L2 i := by
  simp [fb_count_logs, List.filter_append]

theorem fb_count_logs_other (L : List LogEntry) (i j : Nat)
    (h : ∀ l ∈ L, l.message_id = some i) (hij : j ≠ i) : fb_count_logs L j = 0 := by
  unfold fb_count_logs
  rw [List.length_eq_zero, List.filter_eq_nil_iff]
  intro l hl
  simp only [fb_pred, h l hl, decide_eq_true_eq, Option.some.injEq, not_and]
  intro _ he
  exact hij he.symm

/-- Log rows only reference already-allocated message ids. -/
def log_id_lt (n : Nat) (l : LogEntry) : Bool :=
  match l.message_id with
  | some j => decide (j < n)
  | none => true

theorem log_id_lt_spec (n : Nat) (l : LogEntry) (h : log_id_lt n l = true) :
    ∀ j, l.message_id = some j → j < n := by
  intro j hj
  unfold log_id_lt at h
  rw [hj] at h
  exact of_decide_eq_true h

theorem log_id_lt_of (n : Nat) (l : LogEntry)
    (h : ∀ j, l.message_id = some j → j < n) : log_id_lt n l = true := by
  unfold log_id_lt
  cases hl : l.message_id with
  | none => rfl
  | some j => exact decide_eq_true (h j hl)

/-- Well-formed state: message ids are pairwise distinct and below the
allocation counter, and logs only reference allocated ids. -/
def wf (st : St) : Prop :=
  (st.messages.map (fun m => m.id)).Nodup ∧
  (∀ m ∈ st.messages, m.id < st.next_id) ∧
  (∀ l ∈ st.logs, log_id_lt st.next_id l = true)

/-- A message row respects its retry budget: `attempts ≤ max_attempts`, and a
row still eligible for dispatch has attempts strictly below the budget. -/
def msg_ok (m : Msg) : Prop :=
  m.attempts ≤ m.max_attempts ∧
  ((m.status = MStatus.pending ∨ m.status = MStatus.scheduled) → m.attempts < m.max_attempts)

/-- Every message row respects its retry budget. -/
def inv_attempts (st : St) : Prop :=
  ∀ m ∈ st.messages, msg_ok m

/-- A row that has not (yet) terminally failed has no fallback spawn recorded
for it. -/
def inv_fb_fresh (st : St) : Prop :=
  ∀ m ∈ st.messages, m.status ≠ MStatus.failed → fb_count st m.id = 0

/-- No message ever has more than one fallback spawn recorded. -/
def inv_fb_once (st : St) : Prop :=
  ∀ m ∈ st.messages, fb_count st m.id ≤ 1

/-- All delivery-loop invariants together. -/
def all_inv (st : St) : Prop :=
  wf st ∧ inv_attempts st ∧ inv_fb_fresh st ∧ inv_fb_once st

theorem find_msg_of_mem (st : St) (m : Msg) (hnd : (st.messages.map (fun x => x.id)).Nodup)
    (hm : m ∈ st.messages) : find_msg st m.id = some m :=
  find_id_of_mem_nodup st.messages hnd m hm

/-- Every `Except.ok` branch of the dispatcher reports status `sent`. -/
theorem dispatch_ok_sent (env : Env) (o : Outcome) (m : Msg) (r : DispatchResult)
    (h : dispatch_message env o m = Except.ok r) : r.status = MStatus.sent := by
  unfold dispatch_message at h
  split_ifs at h <;> (try cases o) <;> (try cases h) <;> simp_all

/-- What one delivery-loop step does to the state: it persists a single
updated row `m2` for the selected id `i`, appends logs that all reference
`i` (at most one of them a fallback-spawn log, and only when `m2` terminally
failed), and optionally inserts one fresh pending fallback row. -/
def step_outcome (st : St) (i : Nat) (m2 : Msg) (L : List LogEntry) (spawned : Option Msg)
    (st' : St) : Prop :=
  m2.id = i ∧
  st'.logs = st.logs ++ L ∧
  (∀ l ∈ L, l.message_id = some i) ∧
  fb_count_logs L i ≤ 1 ∧
  (fb_count_logs L i = 0 ∨ m2.status = MStatus.failed) ∧
  (match spawned with
   | none => st'.messages = set_msg st.messages m2 ∧ st'.next_id = st.next_id
   | some nm =>
     st'.messages = set_msg st.messages m2 ++ [nm] ∧ st'.next_id = st.next_id + 1 ∧
     nm.id = st.next_id ∧ nm.status = MStatus.pending ∧ nm.attempts = 0 ∧ nm.max_attempts = 3)

/-- What `_queue_fallback` does to any state: it appends at most one
"Fallback scheduled" log referencing the failed message, and either leaves
the message table alone or inserts one fresh pending fallback row. -/
theorem queue_fallback_shape (stb : St) (mf : Msg) :
    ∃ (spawned : Option Msg) (L2 : List LogEntry),
      (queue_fallback stb mf).logs = stb.logs ++ L2 ∧
      (∀ l ∈ L2, l.message_id = some mf.id) ∧
      fb_count_logs L2 mf.id ≤ 1 ∧
      (match spawned with
       | none => (queue_fallback stb mf).messages = stb.messages ∧
           (queue_fallback stb mf).next_id = stb.next_id
       | some nm => (queue_fallback stb mf).messages = stb.messages ++ [nm] ∧
           (queue_fallback stb mf).next_id = stb.next_id + 1 ∧ nm.id = stb.next_id ∧
           nm.status = MStatus.pending ∧ nm.attempts = 0 ∧ nm.max_attempts = 3) := by
  cases hfb : mf.metadata.fallback_channels with
  | nil =>
    refine ⟨none, [], ?_, ?_, ?_, ?_⟩ <;>
      simp [queue_fallback, hfb, fb_count_logs]
  | cons next rest =>
    by_cases hany : stb.messages.any
        (fun x => decide (x.customer.id = mf.customer.id ∧ x.channel = next)) = true
    · have hex : ∃ x ∈ stb.messages, x.customer.id = mf.customer.id ∧ x.channel = next := by
        rcases List.any_eq_true.mp hany with ⟨x, hx, hpx⟩
        exact ⟨x, hx, by simpa using hpx⟩
      refine ⟨none, [{ action := "Fallback scheduled", message_id := some mf.id, details := next }],
        ?_, ?_, ?_, ?_⟩ <;>
        simp [queue_fallback, hfb, hex, add_log, fb_count_logs, fb_pred]
    · have hnex : ¬ ∃ x ∈ stb.messages, x.customer.id = mf.customer.id ∧ x.channel = next := by
        intro hc
        rcases hc with ⟨x, hx, hpx⟩
        exact hany (List.any_eq_true.mpr ⟨x, hx, by simpa using hpx⟩)
      refine ⟨some (fallback_row stb.next_id mf next rest),
        [{ action := "Fallback scheduled", message_id := some mf.id, details := next }],
        ?_, ?_, ?_, ?_⟩ <;>
        simp [queue_fallback, hfb, hnex, add_log, fb_count_logs, fb_pred, fallback_row]

theorem step_msg_shape (env : Env) (o : Outcome) (st : St) (i : Nat) (m : Msg)
    (hfind : find_msg st i = some m)
    (hlt : m.attempts < m.max_attempts) :
    ∃ m2 L spawned, step_outcome st i m2 L spawned (step_msg env o st i).2 ∧ msg_ok m2 := by
  have hfind' : st.messages.find? (fun x => decide (x.id = i)) = some m := hfind
  have hp := List.find?_some hfind'
  have hid : m.id = i := by simpa using hp
  simp only [step_msg, hfind]
  cases hdisp : dispatch_message env o (sending_row m) with
  | ok r =>
    have hrs : r.status = MStatus.sent := dispatch_ok_sent env o _ r hdisp
    refine ⟨success_row (sending_row m) r,
      [{ action := "Message sent", message_id := some (sending_row m).id }], none,
      ⟨hid, rfl, ?_, ?_, ?_, ?_, ?_⟩, ?_, ?_⟩
    · intro l hl
      rw [List.mem_singleton.mp hl]
      simp [sending_row, hid]
    · simp [fb_count_logs, fb_pred]
    · left
      simp [fb_count_logs, fb_pred]
    · exact set_msg_set_msg st.messages (sending_row m) (success_row (sending_row m) r) rfl
    · rfl
    · show (success_row (sending_row m) r).attempts ≤ _
      simp [success_row, sending_row]
      omega
    · intro hps
      rw [show (success_row (sending_row m) r).status = r.status from rfl, hrs] at hps
      rcases hps with hps | hps <;> cases hps
  | error e =>
    simp only [hdisp]
    by_cases hretry : (sending_row m).attempts < (sending_row m).max_attempts
    · refine ⟨failure_row (sending_row m) e,
        [{ action := "Message failed", message_id := some (sending_row m).id, details := e }],
        none, ⟨hid, ?_, ?_, ?_, ?_, ?_, ?_⟩, ?_, ?_⟩
      · simp only [handle_failure, add_log, if_pos hretry]
      · intro l hl
        rw [List.mem_singleton.mp hl]
        simp [sending_row, hid]
      · simp [fb_count_logs, fb_pred]
      · left
        simp [fb_count_logs, fb_pred]
      · simp only [handle_failure, add_log, if_pos hretry]
        exact set_msg_set_msg st.messages (sending_row m) (failure_row (sending_row m) e) rfl
      · simp only [handle_failure, add_log, if_pos hretry]
      · show (failure_row (sending_row m) e).attempts ≤ _
        simp [failure_row, sending_row]
        omega
      · intro _
        show (sending_row m).attempts < (sending_row m).max_attempts
        exact hretry
    · have hstat : (failure_row (sending_row m) e).status = MStatus.failed := by
        simp [failure_row, if_neg hretry]
      have hmok : msg_ok (failure_row (sending_row m) e) := by
        constructor
        · show (sending_row m).attempts ≤ (sending_row m).max_attempts
          simp [sending_row]
          omega
        · intro hps
          rw [hstat] at hps
          rcases hps with hps | hps <;> cases hps
      have hid2 : (failure_row (sending_row m) e).id = i := hid
      have hcoll := set_msg_set_msg st.messages (sending_row m) (failure_row (sending_row m) e) rfl
      simp only [handle_failure, add_log, if_neg hretry, hcoll]
      obtain ⟨spawned, L2, hlogs2, hids2, hfb2, hsp⟩ :=
        queue_fallback_shape
          { campaign := st.campaign,
            messages := set_msg st.messages (failure_row (sending_row m) e),
            variants := st.variants,
            logs := st.logs ++
              [{ action := "Message failed", message_id := some (sending_row m).id, details := e }],
            next_id := st.next_id,
            notifications := st.notifications }
          (failure_row (sending_row m) e)
      dsimp only at hlogs2 hsp
      refine ⟨failure_row (sending_row m) e,
        { action := "Message failed", message_id := some (sending_row m).id, details := e } :: L2,
        spawned, ⟨hid, ?_, ?_, ?_, ?_, ?_⟩, hmok⟩
      · rw [hlogs2, List.append_assoc, List.singleton_append]
      · intro l hl
        rcases List.mem_cons.mp hl with h1 | h1
        · rw [h1]
          simp [sending_row, hid]
        · rw [hids2 l h1, hid2]
      · show fb_count_logs
          ([{ action := "Message failed", message_id := some (sending_row m).id, details := e }] ++ L2) i ≤ 1
        rw [fb_count_logs_append]
        have h0 : fb_count_logs
            [{ action := "Message failed", message_id := some (sending_row m).id, details := e }] i = 0 := by
          simp [fb_count_logs, fb_pred]
        rw [h0, hid2] at *
        simpa using hfb2
      · right
        exact hstat
      · cases spawned with
        | none => exact hsp
        | some nm => exact hsp

theorem log_id_lt_mono (n n' : Nat) (h : n ≤ n') (l : LogEntry) (hl : log_id_lt n l = true) :
    log_id_lt n' l = true := by
  apply log_id_lt_of
  intro j hj
  exact lt_of_lt_of_le (log_id_lt_spec n l hl j hj) h

theorem fb_count_fresh (st : St) (hlog : ∀ l ∈ st.logs, log_id_lt st.next_id l = true) :
    fb_count st st.next_id = 0 := by
  unfold fb_count fb_count_logs
  rw [List.length_eq_zero, List.filter_eq_nil_iff]
  intro l hl hc
  unfold fb_pred at hc
  rcases of_decide_eq_true hc with ⟨_, hmid⟩
  exact absurd (log_id_lt_spec _ _ (hlog l hl) _ hmid) (lt_irrefl _)

/-- The invariants survive one delivery-loop step, the id counter only grows,
and every row other than the selected one is untouched. -/
theorem step_shape_preserves (st st' : St) (i : Nat) (m m2 : Msg) (L : List LogEntry)
    (spawned : Option Msg)
    (hso : step_outcome st i m2 L spawned st')
    (hmok : msg_ok m2)
    (hfind : find_msg st i = some m)
    (hps : m.status = MStatus.pending ∨ m.status = MStatus.scheduled)
    (hai : all_inv st) :
    all_inv st' ∧ st.next_id ≤ st'.next_id ∧
    (∀ j, j ≠ i → j < st.next_id → find_msg st' j = find_msg st j) := by
  obtain ⟨hid2, hlogs, hids, hfb1, hfbd, hsp⟩ := hso
  obtain ⟨⟨hnd, hlt, hlog⟩, ha, hf, ho⟩ := hai
  have hfind' : st.messages.find? (fun x => decide (x.id = i)) = some m := hfind
  have hmem : m ∈ st.messages := List.mem_of_find?_eq_some hfind'
  have hmi : m.id = i := by simpa using List.find?_some hfind'
  have hilt : i < st.next_id := hmi ▸ hlt m hmem
  have hmne : m.status ≠ MStatus.failed := by
    rcases hps with hps | hps <;> simp [hps]
  have hfb_sti : fb_count st i = 0 := hmi ▸ hf m hmem hmne
  have hfb_st' : ∀ j, fb_count st' j = fb_count st j + fb_count_logs L j := by
    intro j
    unfold fb_count
    rw [hlogs, fb_count_logs_append]
  have hfbL_other : ∀ j, j ≠ i → fb_count_logs L j = 0 :=
    fun j hj => fb_count_logs_other L i j hids hj
  have hfresh : st.next_id ∉ st.messages.map (fun x => x.id) := by
    intro hc
    rcases List.mem_map.mp hc with ⟨y, hy, hyid⟩
    exact absurd (hyid ▸ hlt y hy) (lt_irrefl _)
  have hlog' : ∀ l ∈ st'.logs, log_id_lt st'.next_id l = true := by
    have hmono : st.next_id ≤ st'.next_id := by
      cases spawned with
      | none => exact le_of_eq hsp.2.symm
      | some nm => exact hsp.2.1 ▸ Nat.le_succ _
    intro l hl
    rw [hlogs] at hl
    rcases List.mem_append.mp hl with h1 | h1
    · exact log_id_lt_mono _ _ hmono l (hlog l h1)
    · exact log_id_lt_of _ l (fun j hj => by
        rw [hids l h1] at hj
        cases hj
        exact lt_of_lt_of_le hilt hmono)
  cases spawned with
  | none =>
    obtain ⟨hmsgs, hnid⟩ := hsp
    have hmem' : ∀ y ∈ st'.messages, y = m2 ∨ (y ∈ st.messages ∧ y.id ≠ m2.id) := by
      intro y hy
      exact mem_set_msg _ _ _ (hmsgs ▸ hy)
    refine ⟨⟨⟨?_, ?_, hlog'⟩, ?_, ?_, ?_⟩, le_of_eq hnid.symm, ?_⟩
    · rw [hmsgs, set_msg_map_id]
      exact hnd
    · intro y hy
      rcases hmem' y hy with hy2 | ⟨hy2, _⟩
      · rw [hy2, hid2, hnid]
        exact hilt
      · rw [hnid]
        exact hlt y hy2
    · intro y hy
      rcases hmem' y hy with hy2 | ⟨hy2, _⟩
      · rw [hy2]
        exact hmok
      · exact ha y hy2
    · intro y hy hyne
      rcases hmem' y hy with hy2 | ⟨hy2, hyid⟩
      · subst hy2
        rw [hfb_st', hid2, hfb_sti]
        rcases hfbd with hfbd | hfbd
        · rw [hfbd]
        · exact absurd hfbd hyne
      · rw [hfb_st', hfbL_other y.id (fun hc => hyid (hc.trans hid2.symm)), hf y hy2 hyne]
    · intro y hy
      rcases hmem' y hy with hy2 | ⟨hy2, hyid⟩
      · subst hy2
        rw [hfb_st', hid2, hfb_sti]
        simpa using hfb1
      · rw [hfb_st', hfbL_other y.id (fun hc => hyid (hc.trans hid2.symm))]
        simpa using ho y hy2
    · intro j hj hjlt
      show (st'.messages.find? (fun x => decide (x.id = j))) = _
      rw [hmsgs, find?_set_msg_ne st.messages m2 j (fun hc => hj (hc.trans hid2))]
      rfl
  | some nm =>
    obtain ⟨hmsgs, hnid, hnmid, hnmst, hnma, hnmx⟩ := hsp
    have hmem' : ∀ y ∈ st'.messages, y = m2 ∨ (y ∈ st.messages ∧ y.id ≠ m2.id) ∨ y = nm := by
      intro y hy
      rw [hmsgs] at hy
      rcases List.mem_append.mp hy with h1 | h1
      · rcases mem_set_msg _ _ _ h1 with h2 | h2
        · exact Or.inl h2
        · exact Or.inr (Or.inl h2)
      · exact Or.inr (Or.inr (List.mem_singleton.mp h1))
    have hmono : st.next_id ≤ st'.next_id := hnid ▸ Nat.le_succ _
    refine ⟨⟨⟨?_, ?_, hlog'⟩, ?_, ?_, ?_⟩, hmono, ?_⟩
    · rw [hmsgs, List.map_append, set_msg_map_id]
      exact nodup_append_fresh _ _ hnd (by simpa [hnmid] using hfresh)
    · intro y hy
      rcases hmem' y hy with hy2 | ⟨hy2, _⟩ | hy2
      · rw [hy2, hid2, hnid]
        exact lt_trans hilt (Nat.lt_succ_self _)
      · rw [hnid]
        exact lt_trans (hlt y hy2) (Nat.lt_succ_self _)
      · rw [hy2, hnmid, hnid]
        exact Nat.lt_succ_self _
    · intro y hy
      rcases hmem' y hy with hy2 | ⟨hy2, _⟩ | hy2
      · rw [hy2]
        exact hmok
      · exact ha y hy2
      · rw [hy2]
        refine ⟨?_, fun _ => ?_⟩ <;> rw [hnma, hnmx] <;> omega
    · intro y hy hyne
      rcases hmem' y hy with hy2 | ⟨hy2, hyid⟩ | hy2
      · subst hy2
        rw [hfb_st', hid2, hfb_sti]
        rcases hfbd with hfbd | hfbd
        · rw [hfbd]
        · exact absurd hfbd hyne
      · rw [hfb_st', hfbL_other y.id (fun hc => hyid (hc.trans hid2.symm)), hf y hy2 hyne]
      · subst hy2
        rw [hfb_st', hnmid, fb_count_fresh st hlog,
          hfbL_other st.next_id (fun hc => absurd (hc ▸ hilt) (lt_irrefl _))]
    · intro y hy
      rcases hmem' y hy with hy2 | ⟨hy2, hyid⟩ | hy2
      · subst hy2
        rw [hfb_st', hid2, hfb_sti]
        simpa using hfb1
      · rw [hfb_st', hfbL_other y.id (fun hc => hyid (hc.trans hid2.symm))]
        simpa using ho y hy2
      · subst hy2
        rw [hfb_st', hnmid, fb_count_fresh st hlog,
          hfbL_other st.next_id (fun hc => absurd (hc ▸ hilt) (lt_irrefl _))]
        omega
    · intro j hj hjlt
      show (st'.messages.find? (fun x => decide (x.id = j))) = _
      rw [hmsgs, find?_append_fresh _ nm j (fun hc => absurd (hc ▸ hjlt) (hnmid ▸ lt_irrefl _)),
        find?_set_msg_ne st.messages m2 j (fun hc => hj (hc.trans hid2))]
      rfl

/-- The invariants survive the whole delivery loop over a snapshot of
distinct, currently pending/scheduled message ids; rows outside the snapshot
are untouched. -/
theorem run_ids_preserves (env : Env) :
    ∀ (ids : List Nat) (outs : Nat → Outcome) (st : St),
    all_inv st → ids.Nodup →
    (∀ j ∈ ids, j < st.next_id ∧ ∃ mm, find_msg st j = some mm ∧
      (mm.status = MStatus.pending ∨ mm.status = MStatus.scheduled)) →
    all_inv (run_ids env outs ids st).2.2 ∧
    st.next_id ≤ (run_ids env outs ids st).2.2.next_id ∧
    (∀ j, j ∉ ids → j < st.next_id →
      find_msg (run_ids env outs ids st).2.2 j = find_msg st j) := by
  intro ids
  induction ids with
  | nil =>
    intro outs st hai _ _
    exact ⟨hai, le_refl _, fun _ _ _ => rfl⟩
  | cons i rest ih =>
    intro outs st hai hnd hsel
    have hstate : (run_ids env outs (i :: rest) st).2.2 =
        (run_ids env (fun n => outs (n + 1)) rest (step_msg env (outs 0) st i).2).2.2 := by
      simp only [run_ids]
      by_cases hflag : (step_msg env (outs 0) st i).1 = true
      · rw [if_pos hflag]
      · rw [if_neg hflag]
    obtain ⟨hilt, m, hfind, hps⟩ := hsel i (List.mem_cons_self _ _)
    have hfind' : st.messages.find? (fun x => decide (x.id = i)) = some m := hfind
    have hmlt : m.attempts < m.max_attempts :=
      (hai.2.1 m (List.mem_of_find?_eq_some hfind')).2 hps
    obtain ⟨m2, L, spawned, hso, hmok⟩ := step_msg_shape env (outs 0) st i m hfind hmlt
    obtain ⟨hai1, hmono1, hpres1⟩ :=
      step_shape_preserves st _ i m m2 L spawned hso hmok hfind hps hai
    have hndr : rest.Nodup := (List.nodup_cons.mp hnd).2
    have hinotin : i ∉ rest := (List.nodup_cons.mp hnd).1
    have hselr : ∀ j ∈ rest, j < (step_msg env (outs 0) st i).2.next_id ∧
        ∃ mm, find_msg (step_msg env (outs 0) st i).2 j = some mm ∧
          (mm.status = MStatus.pending ∨ mm.status = MStatus.scheduled) := by
      intro j hj
      obtain ⟨hjlt, mm, hfj, hpsj⟩ := hsel j (List.mem_cons_of_mem _ hj)
      have hji : j ≠ i := fun hc => hinotin (hc ▸ hj)
      refine ⟨lt_of_lt_of_le hjlt hmono1, mm, ?_, hpsj⟩
      rw [hpres1 j hji hjlt]
      exact hfj
    obtain ⟨hai2, hmono2, hpres2⟩ := ih (fun n => outs (n + 1)) _ hai1 hndr hselr
    rw [hstate]
    refine ⟨hai2, le_trans hmono1 hmono2, ?_⟩
    intro j hj hjlt
    have hji : j ≠ i := fun hc => hj (hc ▸ List.mem_cons_self _ _)
    have hjr : j ∉ rest := fun hc => hj (List.mem_cons_of_mem _ hc)
    rw [hpres2 j hjr (lt_of_lt_of_le hjlt hmono1), hpres1 j hji hjlt]

/-- The invariants survive one whole `send_pending_messages` call, and rows
already terminally failed when the call starts are left exactly as they are
(a message is put into `failed` at most once, by the pass that exhausts its
budget). -/
theorem send_pending_preserves (env : Env) (outs : Nat → Outcome) (force : Bool) (st : St)
    (hai : all_inv st) :
    all_inv (send_pending_messages env outs force st).2 ∧
    (∀ m ∈ st.messages, m.status = MStatus.failed →
      find_msg (send_pending_messages env outs force st).2 m.id = some m) := by
  have hff : ∀ m ∈ st.messages, find_msg st m.id = some m :=
    fun m hm => find_msg_of_mem st m hai.1.1 hm
  by_cases hg : (¬ force = true ∧ st.campaign.status = CStatus.draft)
  · have heq : (send_pending_messages env outs force st).2 = st := by
      simp only [send_pending_messages, if_pos hg]
    rw [heq]
    exact ⟨hai, fun m hm _ => hff m hm⟩
  · by_cases he : ((st.messages.filter is_pending_or_scheduled).map (fun m => m.id)).isEmpty = true
    · have heq : (send_pending_messages env outs force st).2 = st := by
        simp only [send_pending_messages, if_neg hg]
        dsimp only
        rw [if_pos he]
      rw [heq]
      exact ⟨hai, fun m hm _ => hff m hm⟩
    · have hsnd : ((st.messages.filter is_pending_or_scheduled).map (fun m => m.id)).Nodup :=
        List.Nodup.sublist (List.Sublist.map _ (List.filter_sublist _)) hai.1.1
      have hsel : ∀ j ∈ (st.messages.filter is_pending_or_scheduled).map (fun m => m.id),
          j < st.next_id ∧ ∃ mm, find_msg st j = some mm ∧
            (mm.status = MStatus.pending ∨ mm.status = MStatus.scheduled) := by
        intro j hj
        rcases List.mem_map.mp hj with ⟨mm, hmm, hmmid⟩
        have hmm2 := List.mem_filter.mp hmm
        have hpsj : mm.status = MStatus.pending ∨ mm.status = MStatus.scheduled :=
          of_decide_eq_true hmm2.2
        refine ⟨hmmid ▸ hai.1.2.1 mm hmm2.1, mm, ?_, hpsj⟩
        rw [← hmmid]
        exact hff mm hmm2.1
      obtain ⟨hai2, hmono2, hpres2⟩ :=
        run_ids_preserves env ((st.messages.filter is_pending_or_scheduled).map (fun m => m.id))
          outs { st with campaign := { st.campaign with status := CStatus.running } } hai hsnd hsel
      have hnotin : ∀ m ∈ st.messages, m.status = MStatus.failed →
          m.id ∉ (st.messages.filter is_pending_or_scheduled).map (fun mm => mm.id) := by
        intro m hm hfs hc
        rcases List.mem_map.mp hc with ⟨mm, hmm, hmmid⟩
        have hmm2 := List.mem_filter.mp hmm
        have : some mm = some m := by
          rw [← hff m hm, ← hmmid]
          exact (hff mm hmm2.1).symm.trans (by rw [hmmid])
        have hmmeq : mm = m := by
          have h1 : find_msg st mm.id = some mm := hff mm hmm2.1
          rw [hmmid, hff m hm] at h1
          exact (Option.some.injEq _ _ ▸ h1).symm ▸ rfl
        have hpsj : mm.status = MStatus.pending ∨ mm.status = MStatus.scheduled :=
          of_decide_eq_true hmm2.2
        rw [hmmeq, hfs] at hpsj
        rcases hpsj with h | h <;> cases h
      have heq : (send_pending_messages env outs force st).2 =
          (if ((refresh_metrics (run_ids env outs
                ((st.messages.filter is_pending_or_scheduled).map (fun m => m.id))
                { st with campaign := { st.campaign with status := CStatus.running } }).2.2).messages.filter
                  is_pending_or_scheduled).length = 0 then
            finalize (refresh_metrics (run_ids env outs
                ((st.messages.filter is_pending_or_scheduled).map (fun m => m.id))
                { st with campaign := { st.campaign with status := CStatus.running } }).2.2)
              (if (run_ids env outs
                  ((st.messages.filter is_pending_or_scheduled).map (fun m => m.id))
                  { st with campaign := { st.campaign with status := CStatus.running } }).2.1 ≠ 0 then
                CStatus.failed
              else CStatus.completed)
          else refresh_metrics (run_ids env outs
              ((st.messages.filter is_pending_or_scheduled).map (fun m => m.id))
              { st with campaign := { st.campaign with status := CStatus.running } }).2.2) := by
        simp only [send_pending_messages, if_neg hg]
        dsimp only
        rw [if_neg he]
      rw [heq]
      by_cases hrem : ((refresh_metrics (run_ids env outs
            ((st.messages.filter is_pending_or_scheduled).map (fun m => m.id))
            { st with campaign := { st.campaign with status := CStatus.running } }).2.2).messages.filter
              is_pending_or_scheduled).length = 0
      · rw [if_pos hrem]
        refine ⟨hai2, ?_⟩
        intro m hm hfs
        have h1 : find_msg (run_ids env outs
            ((st.messages.filter is_pending_or_scheduled).map (fun mm => mm.id))
            { st with campaign := { st.campaign with status := CStatus.running } }).2.2 m.id
            = find_msg st m.id :=
          hpres2 m.id (hnotin m hm hfs) (hai.1.2.1 m hm)
        show find_msg (run_ids env outs
            ((st.messages.filter is_pending_or_scheduled).map (fun mm => mm.id))
            { st with campaign := { st.campaign with status := CStatus.running } }).2.2 m.id = some m
        rw [h1]
        exact hff m hm
      · rw [if_neg hrem]
        refine ⟨hai2, ?_⟩
        intro m hm hfs
        have h1 : find_msg (run_ids env outs
            ((st.messages.filter is_pending_or_scheduled).map (fun mm => mm.id))
            { st with campaign := { st.campaign with status := CStatus.running } }).2.2 m.id
            = find_msg st m.id :=
          hpres2 m.id (hnotin m hm hfs) (hai.1.2.1 m hm)
        show find_msg (run_ids env outs
            ((st.messages.filter is_pending_or_scheduled).map (fun mm => mm.id))
            { st with campaign := { st.campaign with status := CStatus.running } }).2.2 m.id = some m
        rw [h1]
        exact hff m hm

/-- The invariants survive any sequence of delivery-loop invocations, and a
terminally failed row is never touched again by any later pass. -/
theorem run_passes_preserves : ∀ (ps : List Pass) (st : St), all_inv st →
    all_inv (run_passes ps st) ∧
    (∀ m ∈ st.messages, m.status = MStatus.failed →
      find_msg (run_passes ps st) m.id = some m) := by
  intro ps
  induction ps with
  | nil =>
    intro st hai
    exact ⟨hai, fun m hm _ => find_msg_of_mem st m hai.1.1 hm⟩
  | cons p tl ih =>
    intro st hai
    obtain ⟨hai1, hfail1⟩ := send_pending_preserves p.env p.outs p.force st hai
    obtain ⟨hai2, hfail2⟩ := ih (run_pass p st) hai1
    refine ⟨hai2, ?_⟩
    intro m hm hfs
    have h1 : (run_pass p st).messages.find? (fun x => decide (x.id = m.id)) = some m :=
      hfail1 m hm hfs
    exact hfail2 m (List.mem_of_find?_eq_some h1) hfs

/-! ### Claim C5: retry bound -/

instance (m : Msg) : Decidable (msg_ok m) := by
  unfold msg_ok
  infer_instance

instance (st : St) : Decidable (wf st) := by
  unfold wf
  infer_instance

instance (st : St) : Decidable (inv_attempts st) := by
  unfold inv_attempts
  infer_instance

instance (st : St) : Decidable (inv_fb_fresh st) := by
  unfold inv_fb_fresh
  infer_instance

instance (st : St) : Decidable (inv_fb_once st) := by
  unfold inv_fb_once
  infer_instance

instance (st : St) : Decidable (all_inv st) := by
  unfold all_inv
  infer_instance

/-- C5 — Retry bound: starting from any well-formed state whose dispatchable
rows are within budget (as rows created by the builder or a fallback spawn
with `attempts = 0 < max_attempts` are), across any sequence of
`send_pending_messages` invocations with any provider outcomes: `attempts`
never exceeds `max_attempts` on any row, at most one fallback spawn is ever
recorded for any row, and a row that has reached terminal `failed` is never
modified again — so the transition to `failed` happens exactly once. -/
theorem retry_bound (ps : List Pass) (st : St) (hai : all_inv st) :
    (∀ m ∈ (run_passes ps st).messages, m.attempts ≤ m.max_attempts) ∧
    (∀ m ∈ (run_passes ps st).messages, fb_count (run_passes ps st) m.id ≤ 1) ∧
    (∀ m ∈ st.messages, m.status = MStatus.failed →
      find_msg (run_passes ps st) m.id = some m) := by
  obtain ⟨hai2, hfail⟩ := run_passes_preserves ps st hai
  exact ⟨fun m hm => (hai2.2.1 m hm).1, hai2.2.2.2, hfail⟩

/-- A pending email message with a WhatsApp fallback, fresh from a build. -/
def retrySampleMsg : Msg :=
  { id := 0,
    customer := { id := 2, email := "b@x.com", phone_number := "+15551234", first_name := "Bob" },
    channel := "email", content := "hello",
    metadata := { fallback_channels := ["whatsapp"] } }

/-- Scheduled campaign owning `retrySampleMsg`. -/
def retrySampleSt : St :=
  { campaign := { status := .scheduled, channels := [("email", true), ("whatsapp", true)] },
    messages := [retrySampleMsg], next_id := 1 }

/-- One delivery pass in which every provider call fails. -/
def failAllPass : Pass := { outs := fun _ => Outcome.fail "boom", force := false }

/-- Five all-failing passes: enough to exhaust the email budget, spawn the
WhatsApp fallback and exhaust its budget too. -/
def retryPasses : List Pass := [failAllPass, failAllPass, failAllPass, failAllPass, failAllPass]

/-- Witness for C5 on a concrete state driven through five failing passes. -/
theorem retry_bound_witness :
    (∀ m ∈ (run_passes retryPasses retrySampleSt).messages, m.attempts ≤ m.max_attempts) ∧
    (∀ m ∈ (run_passes retryPasses retrySampleSt).messages,
      fb_count (run_passes retryPasses retrySampleSt) m.id ≤ 1) ∧
    (∀ m ∈ retrySampleSt.messages, m.status = MStatus.failed →
      find_msg (run_passes retryPasses retrySampleSt) m.id = some m) :=
  retry_bound retryPasses retrySampleSt (by decide)

end Marketing
